import Mathlib

/-!
Shallow embedding of the space-shooter game engine from
`src/components/space-shooter-game.tsx`.

All JavaScript numbers that occur in the game logic are exact rationals
(integer literals, halves from `width / 2`, and the random samples), so
coordinates are modelled as `ℚ`.  Timestamps (`Date.now()`) are modelled
as `Int` milliseconds.  The ambient sources of nondeterminism
(`Math.random()` and `Date.now()`) are injected through a per-frame
environment record, mirroring the design note in the spec that the
random source should be injectable.
-/

namespace SpaceShooter

set_option maxRecDepth 1000000

/-- The source's `interface Player` plus the dynamically-added `lastShot` timestamp
(`undefined` before the first shot, hence `Option`). -/
structure Player where
  x : ℚ
  y : ℚ
  width : ℚ
  height : ℚ
  speed : ℚ
  lastShot : Option Int
  active : Bool
deriving DecidableEq, Repr

/-- The source's `interface Enemy`. -/
structure Enemy where
  x : ℚ
  y : ℚ
  width : ℚ
  height : ℚ
  speed : ℚ
  direction : ℚ
  active : Bool
deriving DecidableEq, Repr

/-- The source's `interface Bullet`. -/
structure Bullet where
  x : ℚ
  y : ℚ
  width : ℚ
  height : ℚ
  speed : ℚ
  isPlayerBullet : Bool
  active : Bool
deriving DecidableEq, Repr

/-- The source's `interface Star`. -/
structure Star where
  x : ℚ
  y : ℚ
  speed : ℚ
  brightness : ℚ
deriving DecidableEq, Repr

/-- The React `gameState`: score, level, lives and the two flags. -/
structure GameState where
  score : Int
  level : Int
  lives : Int
  gameOver : Bool
  paused : Bool
deriving DecidableEq, Repr

/-- The whole mutable world: `gameObjectsRef.current` plus `gameState`. -/
structure World where
  player : Player
  enemies : List Enemy
  bullets : List Bullet
  stars : List Star
  state : GameState
deriving DecidableEq, Repr

/-- Snapshot of `keysRef.current`: which of the five relevant keys are held. -/
structure Keys where
  left : Bool
  right : Bool
  up : Bool
  down : Bool
  space : Bool
deriving DecidableEq, Repr

/-- Ambient inputs consumed by one `updateGame` call: the `Math.random()`
sample used when the i-th star wraps, the two samples of the enemy-shooting
step, and `Date.now()`. -/
structure FrameEnv where
  starR : Nat → ℚ
  shootRoll : ℚ
  pickRoll : ℚ
  now : Int

/-- Constraints every real ambient input satisfies: `Math.random()` lies in
`[0, 1)` and `Date.now()` is a positive millisecond count. -/
def ValidEnv (env : FrameEnv) : Prop :=
  (∀ i, 0 ≤ env.starR i ∧ env.starR i < 1) ∧
    (0 ≤ env.shootRoll ∧ env.shootRoll < 1) ∧
    (0 ≤ env.pickRoll ∧ env.pickRoll < 1) ∧
    0 < env.now

/-- The four `Math.random()` samples drawn for one star in `initStars`. -/
def ValidRand4 (q : ℚ × ℚ × ℚ × ℚ) : Prop :=
  (0 ≤ q.1 ∧ q.1 < 1) ∧ (0 ≤ q.2.1 ∧ q.2.1 < 1) ∧
    (0 ≤ q.2.2.1 ∧ q.2.2.1 < 1) ∧ (0 ≤ q.2.2.2 ∧ q.2.2.2 < 1)

/-- The initial player of `gameObjectsRef` (also rebuilt by `handleRestart`). -/
def initPlayer : Player :=
  { x := 400, y := 550, width := 30, height := 20, speed := 5,
    lastShot := none, active := true }

/-- The source's `initEnemies`: the 5×10 grid, rows outside, columns inside (push order). -/
def initEnemies : List Enemy :=
  (List.range 5).flatMap fun row =>
    (List.range 10).map fun col =>
      { x := 100 + (col : ℚ) * 60, y := 50 + (row : ℚ) * 50,
        width := 25, height := 20, speed := 1, direction := 1, active := true }

/-- The source's `initStars`: 100 stars, each built from four `Math.random()` samples. -/
def initStars (r : Nat → ℚ × ℚ × ℚ × ℚ) : List Star :=
  (List.range 100).map fun i =>
    { x := (r i).1 * 800, y := (r i).2.1 * 600,
      speed := (r i).2.2.1 * 2 + 0.5, brightness := (r i).2.2.2 * 0.8 + 0.2 }

/-- The world right after the mount effect ran `initStars` and `initEnemies`. -/
def initialWorld (r : Nat → ℚ × ℚ × ℚ × ℚ) : World :=
  { player := initPlayer, enemies := initEnemies, bullets := [],
    stars := initStars r,
    state := { score := 0, level := 1, lives := 3, gameOver := false, paused := false } }

/-- Step 1 of `updateGame`, for one star: advance by its speed, wrap to the
top at a random x when it has passed the bottom edge. -/
def updateStar (rx : ℚ) (s : Star) : Star :=
  let s1 : Star := { s with y := s.y + s.speed }
  if 600 < s1.y then { s1 with y := 0, x := rx * 800 } else s1

/-- Step 1 of `updateGame`: the `stars.forEach` loop. -/
def updateStars (env : FrameEnv) (stars : List Star) : List Star :=
  stars.mapIdx fun i s => updateStar (env.starR i) s

/-- The check `if (keysRef.current.has("ArrowLeft") && player.x > 0)`. -/
def moveLeft (k : Keys) (p : Player) : Player :=
  if k.left = true ∧ 0 < p.x then { p with x := p.x - p.speed } else p

/-- The check `if (keysRef.current.has("ArrowRight") && player.x < CANVAS_WIDTH - player.width)`. -/
def moveRight (k : Keys) (p : Player) : Player :=
  if k.right = true ∧ p.x < 800 - p.width then { p with x := p.x + p.speed } else p

/-- The check `if (keysRef.current.has("ArrowUp") && player.y > CANVAS_HEIGHT / 2)`. -/
def moveUp (k : Keys) (p : Player) : Player :=
  if k.up = true ∧ 600 / 2 < p.y then { p with y := p.y - p.speed } else p

/-- The check `if (keysRef.current.has("ArrowDown") && player.y < CANVAS_HEIGHT - player.height)`. -/
def moveDown (k : Keys) (p : Player) : Player :=
  if k.down = true ∧ p.y < 600 - p.height then { p with y := p.y + p.speed } else p

/-- Step 2 of `updateGame`: the four sequential key checks. -/
def movePlayer (k : Keys) (p : Player) : Player :=
  moveDown k (moveUp k (moveRight k (moveLeft k p)))

/-- The cooldown test `!player.lastShot || now - player.lastShot > 200`; an absent timestamp
and the (JS-falsy) timestamp `0` both allow shooting. -/
def canShoot (p : Player) (now : Int) : Bool :=
  match p.lastShot with
  | none => true
  | some t => t == 0 || 200 < now - t

/-- Whether step 3 of `updateGame` fires this frame. -/
def fireNow (k : Keys) (p : Player) (now : Int) : Bool :=
  k.space && canShoot p now

/-- The player bullet pushed by step 3 of `updateGame`. -/
def newBullet (p : Player) : Bullet :=
  { x := p.x + p.width / 2 - 2, y := p.y, width := 4, height := 10,
    speed := 8, isPlayerBullet := true, active := true }

/-- Step 3's effect on the player: record the last-shot timestamp. -/
def shotPlayer (k : Keys) (now : Int) (p : Player) : Player :=
  if fireNow k p now then { p with lastShot := some now } else p

/-- Step 3's effect on the bullet list: push the new player bullet. -/
def shotBullets (k : Keys) (now : Int) (p : Player) (bs : List Bullet) : List Bullet :=
  if fireNow k p now then bs ++ [newBullet p] else bs

/-- Step 4 of `updateGame`, for one bullet: player bullets move up and die
past the top, enemy bullets move down and die past the bottom. -/
def advanceBullet (b : Bullet) : Bullet :=
  if b.isPlayerBullet then
    let y1 := b.y - b.speed
    { b with y := y1, active := if y1 < 0 then false else b.active }
  else
    let y1 := b.y + b.speed
    { b with y := y1, active := if 600 < y1 then false else b.active }

/-- Step 5 of `updateGame`, horizontal part: active enemies advance. -/
def advanceEnemy (e : Enemy) : Enemy :=
  if e.active then { e with x := e.x + e.speed * e.direction } else e

/-- The boundary test `enemy.x <= 0 || enemy.x >= CANVAS_WIDTH - enemy.width`, on the moved x. -/
def atBoundary (e : Enemy) : Bool :=
  decide (e.x ≤ 0) || decide (800 - e.width ≤ e.x)

/-- The `moveDown` flag of step 5: after the horizontal advance, some active
enemy sits at (or past) a side boundary. -/
def wallHit (es : List Enemy) : Bool :=
  (es.map advanceEnemy).any fun e => e.active && atBoundary e

/-- The synchronized wave reaction: an active enemy flips its direction and
steps down by 20; inactive enemies are untouched. -/
def reverseEnemy (e : Enemy) : Enemy :=
  if e.active then { e with direction := e.direction * (-1), y := e.y + 20 } else e

/-- Step 5 of `updateGame`: move every active enemy, then, if any active
enemy reached a side boundary, the whole wave reverses and steps down 20. -/
def advanceEnemies (es : List Enemy) : List Enemy :=
  let moved := es.map advanceEnemy
  if wallHit es then moved.map reverseEnemy else moved

/-- Junk element used only to give `List.getD` a default; never selected
under `ValidEnv` inputs. -/
def noEnemy : Enemy :=
  { x := 0, y := 0, width := 0, height := 0, speed := 0, direction := 0, active := false }

/-- Junk bullet used only as a `List.getD` default in statements. -/
def noBullet : Bullet :=
  { x := 0, y := 0, width := 0, height := 0, speed := 0,
    isPlayerBullet := false, active := false }

/-- Step 6 of `updateGame`: with probability 0.02 a uniformly-random active
enemy fires a downward bullet from its bottom edge. -/
def enemyShoot (env : FrameEnv) (es : List Enemy) (bs : List Bullet) : List Bullet :=
  if env.shootRoll < 0.02 then
    let act := es.filter fun e => e.active
    if 0 < act.length then
      let shooter := act.getD (Int.toNat ⌊env.pickRoll * (act.length : ℚ)⌋) noEnemy
      bs ++ [{ x := shooter.x + shooter.width / 2 - 2, y := shooter.y + shooter.height,
               width := 4, height := 8, speed := 3,
               isPlayerBullet := false, active := true }]
    else bs
  else bs

/-- The four strict half-plane tests of a player bullet against an enemy box. -/
def overlapsEnemy (b : Bullet) (e : Enemy) : Bool :=
  decide (b.x < e.x + e.width) && decide (e.x < b.x + b.width) &&
    decide (b.y < e.y + e.height) && decide (e.y < b.y + b.height)

/-- The four strict half-plane tests of an enemy bullet against the player box. -/
def overlapsPlayer (b : Bullet) (p : Player) : Bool :=
  decide (b.x < p.x + p.width) && decide (p.x < b.x + b.width) &&
    decide (b.y < p.y + p.height) && decide (p.y < b.y + b.height)

/-- How many enemies the inner `enemies.forEach` of the collision loop hits
for one player bullet (each adds 10 to the score). -/
def killCount (b : Bullet) (es : List Enemy) : Nat :=
  (es.filter fun e => e.active && overlapsEnemy b e).length

/-- The inner `enemies.forEach` of the collision loop: every active enemy
whose box meets the bullet's box is deactivated.  The source never re-checks
`bullet.active` inside this loop, so every overlapping enemy is hit. -/
def smashEnemies (b : Bullet) (es : List Enemy) : List Enemy :=
  es.map fun e =>
    if e.active && overlapsEnemy b e then { e with active := false } else e

/-- Output of the collision-resolution step (step 7 of `updateGame`). -/
structure ColOut where
  bullets : List Bullet
  enemies : List Enemy
  score : Int
  lives : Int
  gameOver : Bool
deriving DecidableEq, Repr

/-- Step 7 of `updateGame`: the `bullets.forEach` collision loop.  Bullets
are processed in list order; a player bullet deactivates every enemy it
overlaps and scores 10 per hit; an enemy bullet overlapping the player is
deactivated, decrements lives, and sets `gameOver` to `newLives <= 0`. -/
def resolveCollisions (p : Player) :
    List Bullet → List Enemy → Int → Int → Bool → ColOut
  | [], es, sc, lv, go => ⟨[], es, sc, lv, go⟩
  | b :: rest, es, sc, lv, go =>
    if b.active = false then
      let out := resolveCollisions p rest es sc lv go
      { out with bullets := b :: out.bullets }
    else if b.isPlayerBullet then
      let n := killCount b es
      let out := resolveCollisions p rest (smashEnemies b es) (sc + 10 * (n : Int)) lv go
      { out with
          bullets := (if 0 < n then { b with active := false } else b) :: out.bullets }
    else if overlapsPlayer b p then
      let out := resolveCollisions p rest es sc (lv - 1) (decide (lv - 1 ≤ 0))
      { out with bullets := { b with active := false } :: out.bullets }
    else
      let out := resolveCollisions p rest es sc lv go
      { out with bullets := b :: out.bullets }

/-- Step 10 of `updateGame`: any active enemy whose bottom edge reaches the
player's top edge forces game over. -/
def lossCheck (es : List Enemy) (p : Player) (go : Bool) : Bool :=
  go || es.any fun e => e.active && decide (p.y ≤ e.y + e.height)

/-- Number of active enemies in a list. -/
def activeCount (es : List Enemy) : Nat :=
  (es.filter fun e => e.active).length

/-- The collision-resolution call made inside `updateGame`, exposed so that
per-frame claims can speak about the state "at collision-resolution time". -/
def collisionStage (w : World) (k : Keys) (env : FrameEnv) : ColOut :=
  resolveCollisions (shotPlayer k env.now (movePlayer k w.player))
    (enemyShoot env (advanceEnemies w.enemies)
      ((shotBullets k env.now (movePlayer k w.player) w.bullets).map advanceBullet))
    (advanceEnemies w.enemies) w.state.score w.state.lives w.state.gameOver

/-- One call of `updateGame`: a no-op when game over or paused, otherwise
steps 1–10 in source order (starfield, movement, firing, bullet advance,
enemy advance, enemy firing, collisions, pruning, wave clear, loss check).
The loss check walks the pre-respawn enemy array, exactly as the source's
closure over `enemies` does. -/
def updateGame (w : World) (k : Keys) (env : FrameEnv) : World :=
  if w.state.gameOver || w.state.paused then w
  else
    match w with
    | ⟨pl, es, bs, stars, st⟩ =>
      let p2 := shotPlayer k env.now (movePlayer k pl)
      let es1 := advanceEnemies es
      let bs3 := enemyShoot env es1 ((shotBullets k env.now (movePlayer k pl) bs).map advanceBullet)
      match resolveCollisions p2 bs3 es1 st.score st.lives st.gameOver with
      | ⟨obs, oes, osc, olv, ogo⟩ =>
        { player := p2
          enemies := if (oes.filter fun e => e.active).length = 0 then initEnemies else oes
          bullets := obs.filter fun b => b.active
          stars := updateStars env stars
          state :=
            { score := osc
              level := if (oes.filter fun e => e.active).length = 0 then st.level + 1
                else st.level
              lives := olv
              gameOver := lossCheck oes p2 ogo
              paused := st.paused } }

/-- The source's `handleRestart` (key `R`, only actionable while game over): fresh session
state, fresh player, no bullets, fresh wave; the starfield is not touched. -/
def restart (w : World) : World :=
  { player := initPlayer, enemies := initEnemies, bullets := [], stars := w.stars,
    state := { score := 0, level := 1, lives := 3, gameOver := false, paused := false } }

/-- Worlds reachable from a fresh session by frames and (game-over-gated)
restarts, with all ambient inputs in their real ranges. -/
inductive Reachable : World → Prop where
  | init (r : Nat → ℚ × ℚ × ℚ × ℚ) (h : ∀ i, ValidRand4 (r i)) :
      Reachable (initialWorld r)
  | update {w : World} (k : Keys) {env : FrameEnv} :
      Reachable w → ValidEnv env → Reachable (updateGame w k env)
  | restart {w : World} : Reachable w → w.state.gameOver = true →
      Reachable (restart w)

/-- Run a sequence of frames. -/
def runTrace (w : World) (tr : List (Keys × FrameEnv)) : World :=
  tr.foldl (fun w p => updateGame w p.1 p.2) w

/-! ### Invariants used by the proofs -/

/-- The player's x-coordinates that actually occur: multiples of the speed 5
within `[0, 770]`. -/
def XOk (x : ℚ) : Prop :=
  ∃ a : ℤ, x = 5 * a ∧ 0 ≤ a ∧ a ≤ 154

/-- The player's y-coordinates that actually occur: multiples of the speed 5
within `[300, 580]`. -/
def YOk (y : ℚ) : Prop :=
  ∃ b : ℤ, y = 5 * b ∧ 60 ≤ b ∧ b ≤ 116

/-- Shape facts about the player preserved by every frame. -/
def PlayerOk (p : Player) : Prop :=
  XOk p.x ∧ YOk p.y ∧ p.speed = 5 ∧ p.width = 30 ∧ p.height = 20

/-! ### Concrete inputs used by witnesses and counterexamples -/

/-- No key held. -/
def keys0 : Keys := ⟨false, false, false, false, false⟩

/-- Only `ArrowUp` held. -/
def upKeys : Keys := ⟨false, false, true, false, false⟩

/-- Valid ambient inputs for a frame in which no enemy fires. -/
def quietEnv : FrameEnv := ⟨fun _ => 0, 1/2, 0, 1⟩

/-- Valid ambient inputs for a frame in which the enemy of grid index 45
(row 4, column 5) fires. -/
def shotEnv : FrameEnv := ⟨fun _ => 0, 0, 45/50, 1⟩

/-- Star-initialisation samples: every star at the top-left corner with
speed `1/4 * 2 + 0.5 = 1`. -/
def r0 : Nat → ℚ × ℚ × ℚ × ℚ := fun _ => (0, 0, 1/4, 0)

/-- A 37-frame scenario: the player holds `ArrowUp`; the enemy at row 4,
column 5 fires on frames 1, 3, 6 and 7.  The first two bullets hit on
frames 35 and 36 (lives 3 → 2 → 1); the last two bullets reach the player's
box on the same frame 37, so that one frame decrements lives twice. -/
def traceC3 : List (Keys × FrameEnv) :=
  (List.range 37).map fun i =>
    (upKeys, if i + 1 = 1 ∨ i + 1 = 3 ∨ i + 1 = 6 ∨ i + 1 = 7 then shotEnv else quietEnv)

/-- Two overlapping active enemies plus a distant third one. -/
def stackedEnemies : List Enemy :=
  [{ x := 100, y := 100, width := 25, height := 20, speed := 1, direction := 1, active := true },
   { x := 100, y := 110, width := 25, height := 20, speed := 1, direction := 1, active := true },
   { x := 700, y := 100, width := 25, height := 20, speed := 1, direction := 1, active := true }]

/-- A single active player bullet that, after its upward advance, overlaps
the first two enemies of `stackedEnemies` simultaneously. -/
def piercingBullet : Bullet :=
  { x := 105, y := 118, width := 4, height := 10, speed := 8,
    isPlayerBullet := true, active := true }

/-- World for the piercing scenario: one bullet over two stacked enemies. -/
def w1 : World :=
  { player := initPlayer, enemies := stackedEnemies, bullets := [piercingBullet],
    stars := [],
    state := { score := 0, level := 1, lives := 3, gameOver := false, paused := false } }

/-- A world whose enemy list is empty, so the wave-clear check fires. -/
def wClear : World :=
  { player := initPlayer, enemies := [], bullets := [], stars := [],
    state := { score := 0, level := 1, lives := 3, gameOver := false, paused := false } }

/-- A game-over world with junk session values, used to exercise restart. -/
def wPrior : World :=
  { player := { initPlayer with x := 10, y := 580, lastShot := some 7 },
    enemies := [], bullets := [piercingBullet], stars := [⟨1, 2, 3, 4⟩],
    state := { score := 990, level := 7, lives := 0, gameOver := true, paused := false } }

/-- Like `wPrior` but with a different score; same starfield. -/
def wPrior2 : World :=
  { wPrior with state := { wPrior.state with score := 5 } }

/-- An enemy bullet placed so that, after its downward advance by 3, it
overlaps the initial player's box. -/
def hitBullet : Bullet :=
  { x := 410, y := 545, width := 4, height := 8, speed := 3,
    isPlayerBullet := false, active := true }

/-- A world with one life left and one enemy bullet about to hit. -/
def wLastLife : World :=
  { player := initPlayer, enemies := [], bullets := [hitBullet], stars := [],
    state := { score := 0, level := 1, lives := 1, gameOver := false, paused := false } }

/-- A single enemy used by the pairwise collision scenarios. -/
def loneEnemy : Enemy :=
  { x := 100, y := 100, width := 25, height := 20, speed := 1, direction := 1, active := true }

/-- First player bullet overlapping `loneEnemy`. -/
def cb1 : Bullet :=
  { x := 105, y := 95, width := 4, height := 10, speed := 8,
    isPlayerBullet := true, active := true }

/-- Second player bullet, also overlapping `loneEnemy`. -/
def cb2 : Bullet :=
  { x := 110, y := 95, width := 4, height := 10, speed := 8,
    isPlayerBullet := true, active := true }

/-- Only the fire key (`Space`) held. -/
def fireKeys : Keys := ⟨false, false, false, false, true⟩

/-- An active enemy that reaches the right boundary on its next advance. -/
def wallEnemy : Enemy :=
  { x := 774, y := 50, width := 25, height := 20, speed := 1, direction := 1, active := true }

/-! ## Frame-function lemmas -/

theorem moveLeft_y (k : Keys) (p : Player) : (moveLeft k p).y = p.y := by
  unfold moveLeft; split <;> rfl

theorem moveLeft_speed (k : Keys) (p : Player) : (moveLeft k p).speed = p.speed := by
  unfold moveLeft; split <;> rfl

theorem moveLeft_width (k : Keys) (p : Player) : (moveLeft k p).width = p.width := by
  unfold moveLeft; split <;> rfl

theorem moveLeft_height (k : Keys) (p : Player) : (moveLeft k p).height = p.height := by
  unfold moveLeft; split <;> rfl

theorem moveRight_y (k : Keys) (p : Player) : (moveRight k p).y = p.y := by
  unfold moveRight; split <;> rfl

theorem moveRight_speed (k : Keys) (p : Player) : (moveRight k p).speed = p.speed := by
  unfold moveRight; split <;> rfl

theorem moveRight_width (k : Keys) (p : Player) : (moveRight k p).width = p.width := by
  unfold moveRight; split <;> rfl

theorem moveRight_height (k : Keys) (p : Player) : (moveRight k p).height = p.height := by
  unfold moveRight; split <;> rfl

theorem moveUp_x (k : Keys) (p : Player) : (moveUp k p).x = p.x := by
  unfold moveUp; split <;> rfl

theorem moveUp_speed (k : Keys) (p : Player) : (moveUp k p).speed = p.speed := by
  unfold moveUp; split <;> rfl

theorem moveUp_width (k : Keys) (p : Player) : (moveUp k p).width = p.width := by
  unfold moveUp; split <;> rfl

theorem moveUp_height (k : Keys) (p : Player) : (moveUp k p).height = p.height := by
  unfold moveUp; split <;> rfl

theorem moveDown_x (k : Keys) (p : Player) : (moveDown k p).x = p.x := by
  unfold moveDown; split <;> rfl

theorem moveDown_speed (k : Keys) (p : Player) : (moveDown k p).speed = p.speed := by
  unfold moveDown; split <;> rfl

theorem moveDown_width (k : Keys) (p : Player) : (moveDown k p).width = p.width := by
  unfold moveDown; split <;> rfl

theorem moveDown_height (k : Keys) (p : Player) : (moveDown k p).height = p.height := by
  unfold moveDown; split <;> rfl

theorem shotPlayer_x (k : Keys) (now : Int) (p : Player) : (shotPlayer k now p).x = p.x := by
  unfold shotPlayer; split <;> rfl

theorem shotPlayer_y (k : Keys) (now : Int) (p : Player) : (shotPlayer k now p).y = p.y := by
  unfold shotPlayer; split <;> rfl

theorem shotPlayer_speed (k : Keys) (now : Int) (p : Player) :
    (shotPlayer k now p).speed = p.speed := by
  unfold shotPlayer; split <;> rfl

theorem shotPlayer_width (k : Keys) (now : Int) (p : Player) :
    (shotPlayer k now p).width = p.width := by
  unfold shotPlayer; split <;> rfl

theorem shotPlayer_height (k : Keys) (now : Int) (p : Player) :
    (shotPlayer k now p).height = p.height := by
  unfold shotPlayer; split <;> rfl

theorem moveLeft_xok (k : Keys) (p : Player) (hs : p.speed = 5) (h : XOk p.x) :
    XOk (moveLeft k p).x := by
  obtain ⟨a, hxa, ha0, ha1⟩ := h
  unfold moveLeft
  split
  case isTrue hc =>
    have h5 : (0 : ℚ) < 5 * a := hxa ▸ hc.2
    have hq : (0 : ℚ) < (a : ℚ) := by linarith
    have hpos : (0 : ℤ) < a := by exact_mod_cast hq
    exact ⟨a - 1, by push_cast [hs, hxa]; ring, by omega, by omega⟩
  case isFalse => exact ⟨a, hxa, ha0, ha1⟩

theorem moveRight_xok (k : Keys) (p : Player) (hs : p.speed = 5) (hw : p.width = 30)
    (h : XOk p.x) : XOk (moveRight k p).x := by
  obtain ⟨a, hxa, ha0, ha1⟩ := h
  unfold moveRight
  split
  case isTrue hc =>
    have h5 : (5 : ℚ) * a < 800 - 30 := by rw [← hxa, ← hw]; exact hc.2
    have hq : (a : ℚ) < 154 := by linarith
    have hlt : a < 154 := by exact_mod_cast hq
    exact ⟨a + 1, by push_cast [hs, hxa]; ring, by omega, by omega⟩
  case isFalse => exact ⟨a, hxa, ha0, ha1⟩

theorem moveUp_yok (k : Keys) (p : Player) (hs : p.speed = 5) (h : YOk p.y) :
    YOk (moveUp k p).y := by
  obtain ⟨b, hyb, hb0, hb1⟩ := h
  unfold moveUp
  split
  case isTrue hc =>
    have h5 : (600 : ℚ) / 2 < 5 * b := hyb ▸ hc.2
    have hq : (60 : ℚ) < (b : ℚ) := by linarith
    have hgt : (60 : ℤ) < b := by exact_mod_cast hq
    exact ⟨b - 1, by push_cast [hs, hyb]; ring, by omega, by omega⟩
  case isFalse => exact ⟨b, hyb, hb0, hb1⟩

theorem moveDown_yok (k : Keys) (p : Player) (hs : p.speed = 5) (hh : p.height = 20)
    (h : YOk p.y) : YOk (moveDown k p).y := by
  obtain ⟨b, hyb, hb0, hb1⟩ := h
  unfold moveDown
  split
  case isTrue hc =>
    have h5 : (5 : ℚ) * b < 600 - 20 := by rw [← hyb, ← hh]; exact hc.2
    have hq : (b : ℚ) < 116 := by linarith
    have hlt : b < 116 := by exact_mod_cast hq
    exact ⟨b + 1, by push_cast [hs, hyb]; ring, by omega, by omega⟩
  case isFalse => exact ⟨b, hyb, hb0, hb1⟩

theorem movePlayer_ok (k : Keys) (p : Player) (h : PlayerOk p) : PlayerOk (movePlayer k p) := by
  obtain ⟨hx, hy, hs, hw, hh⟩ := h
  unfold movePlayer
  refine ⟨?_, ?_, ?_, ?_, ?_⟩
  · rw [moveDown_x, moveUp_x]
    exact moveRight_xok k _ (by rw [moveLeft_speed, hs]) (by rw [moveLeft_width, hw])
      (moveLeft_xok k p hs hx)
  · exact moveDown_yok k _
      (by rw [moveUp_speed, moveRight_speed, moveLeft_speed, hs])
      (by rw [moveUp_height, moveRight_height, moveLeft_height, hh])
      (moveUp_yok k _ (by rw [moveRight_speed, moveLeft_speed, hs])
        (by rw [moveRight_y, moveLeft_y]; exact hy))
  · rw [moveDown_speed, moveUp_speed, moveRight_speed, moveLeft_speed, hs]
  · rw [moveDown_width, moveUp_width, moveRight_width, moveLeft_width, hw]
  · rw [moveDown_height, moveUp_height, moveRight_height, moveLeft_height, hh]

theorem shotPlayer_ok (k : Keys) (now : Int) (p : Player) (h : PlayerOk p) :
    PlayerOk (shotPlayer k now p) := by
  obtain ⟨hx, hy, hs, hw, hh⟩ := h
  exact ⟨by rw [shotPlayer_x]; exact hx, by rw [shotPlayer_y]; exact hy,
    by rw [shotPlayer_speed, hs], by rw [shotPlayer_width, hw], by rw [shotPlayer_height, hh]⟩

theorem updateGame_of_stopped (w : World) (k : Keys) (env : FrameEnv)
    (h : (w.state.gameOver || w.state.paused) = true) : updateGame w k env = w := by
  unfold updateGame
  simp [h]

theorem updateGame_run (w : World) (k : Keys) (env : FrameEnv)
    (h : (w.state.gameOver || w.state.paused) = false) :
    updateGame w k env =
      { player := shotPlayer k env.now (movePlayer k w.player)
        enemies := if activeCount (collisionStage w k env).enemies = 0 then initEnemies
          else (collisionStage w k env).enemies
        bullets := (collisionStage w k env).bullets.filter fun b => b.active
        stars := updateStars env w.stars
        state :=
          { score := (collisionStage w k env).score
            level := if activeCount (collisionStage w k env).enemies = 0 then w.state.level + 1
              else w.state.level
            lives := (collisionStage w k env).lives
            gameOver := lossCheck (collisionStage w k env).enemies
              (shotPlayer k env.now (movePlayer k w.player)) (collisionStage w k env).gameOver
            paused := w.state.paused } } := by
  cases w with
  | mk pl es bs stars st =>
    unfold updateGame collisionStage activeCount
    simp only [h, Bool.false_eq_true, if_false]

theorem initPlayer_ok : PlayerOk initPlayer := by
  refine ⟨⟨80, by norm_num [initPlayer], by norm_num, by norm_num⟩,
    ⟨110, by norm_num [initPlayer], by norm_num, by norm_num⟩, rfl, rfl, rfl⟩

theorem reachable_playerOk {w : World} (h : Reachable w) : PlayerOk w.player := by
  induction h with
  | init r hr => exact initPlayer_ok
  | update k hr hv ih =>
    rename_i w env
    by_cases hg : (w.state.gameOver || w.state.paused) = true
    · rw [updateGame_of_stopped _ _ _ hg]; exact ih
    · rw [updateGame_run _ _ _ (by simpa using hg)]
      exact shotPlayer_ok _ _ _ (movePlayer_ok _ _ ih)
  | restart hr hgo ih => exact initPlayer_ok

theorem r0_valid : ∀ i, ValidRand4 (r0 i) := by
  intro i
  unfold ValidRand4 r0
  norm_num

/-- C2: starting from the initial player position (400, 550), any sequence
of `updateGame` calls (with any held-key sets and any valid ambient inputs)
keeps the player's x within `[0, 800 − 30]` and y within `[300, 600 − 20]`. -/
theorem c2_player_bounds {w : World} (h : Reachable w) :
    (0 ≤ w.player.x ∧ w.player.x ≤ 800 - 30) ∧
      (300 ≤ w.player.y ∧ w.player.y ≤ 600 - 20) := by
  obtain ⟨⟨a, hxa, ha0, ha1⟩, ⟨b, hyb, hb0, hb1⟩, -, -, -⟩ := reachable_playerOk h
  have ha0q : (0 : ℚ) ≤ a := by exact_mod_cast ha0
  have ha1q : (a : ℚ) ≤ 154 := by exact_mod_cast ha1
  have hb0q : (60 : ℚ) ≤ b := by exact_mod_cast hb0
  have hb1q : (b : ℚ) ≤ 116 := by exact_mod_cast hb1
  rw [hxa, hyb]
  norm_num
  constructor <;> constructor <;> linarith

/-- Witness for C2 at the initial world. -/
theorem c2_player_bounds_witness :
    (0 ≤ (initialWorld r0).player.x ∧ (initialWorld r0).player.x ≤ 800 - 30) ∧
      (300 ≤ (initialWorld r0).player.y ∧ (initialWorld r0).player.y ≤ 600 - 20) :=
  c2_player_bounds (Reachable.init r0 r0_valid)

/-- C9: while game over (or paused) every `updateGame` call returns the world
unchanged, so game over persists across frames, and only `restart` brings the
game-over flag back to false. -/
theorem c9_terminal :
    (∀ (w : World) (k : Keys) (env : FrameEnv),
        w.state.gameOver = true ∨ w.state.paused = true → updateGame w k env = w) ∧
    (∀ (w : World) (k : Keys) (env : FrameEnv),
        w.state.gameOver = true → (updateGame w k env).state.gameOver = true) ∧
    (∀ w : World, (restart w).state.gameOver = false) := by
  refine ⟨?_, ?_, fun w => rfl⟩
  · intro w k env h
    apply updateGame_of_stopped
    rcases h with h | h <;> simp [h]
  · intro w k env h
    have : updateGame w k env = w := updateGame_of_stopped w k env (by simp [h])
    rw [this]
    exact h

/-- Witness for C9 at a concrete game-over world. -/
theorem c9_terminal_witness :
    updateGame wPrior keys0 quietEnv = wPrior ∧ (restart wPrior).state.gameOver = false :=
  ⟨c9_terminal.1 wPrior keys0 quietEnv (Or.inl rfl), c9_terminal.2.2 wPrior⟩

/-- C7: restart resets the session state to score 0, level 1, lives 3,
game-over and paused false, puts the player back at (400, 550), clears the
bullet list, regenerates the canonical wave, and two restarts from worlds
with the same starfield produce identical post-restart worlds, whatever the
rest of the prior state was. -/
theorem c7_restart (w : World) :
    (restart w).state = ⟨0, 1, 3, false, false⟩ ∧
    (restart w).player = initPlayer ∧
    (restart w).bullets = [] ∧
    (restart w).enemies = initEnemies ∧
    (∀ w2 : World, w2.stars = w.stars → restart w2 = restart w) := by
  refine ⟨rfl, rfl, rfl, rfl, fun w2 h => ?_⟩
  unfold restart
  rw [h]

/-- Witness for C7: two different prior sessions with the same starfield
restart to the same world. -/
theorem c7_restart_witness :
    restart wPrior2 = restart wPrior ∧ (restart wPrior).state = ⟨0, 1, 3, false, false⟩ :=
  ⟨(c7_restart wPrior).2.2.2.2 wPrior2 rfl, (c7_restart wPrior).1⟩

/-- C10: restart does not touch the starfield — every star keeps its
position, speed and brightness — and the starfield of a fresh session is
exactly the one `initStars` generated at session start. -/
theorem c10_stars_preserved (w : World) (r : Nat → ℚ × ℚ × ℚ × ℚ) :
    (restart w).stars = w.stars ∧ (initialWorld r).stars = initStars r :=
  ⟨rfl, rfl⟩

/-- C8: with the player's last shot at most 200 ms ago (and a real, positive
timestamp) the firing step spawns nothing; and two firing attempts within
200 ms from a player who had not yet shot add exactly one bullet, centered
on the player's horizontal midpoint at the player's top edge. -/
theorem c8_fire_cooldown :
    (∀ (k : Keys) (p : Player) (bs : List Bullet) (now t : Int),
        p.lastShot = some t → 0 < t → now - t ≤ 200 →
        shotBullets k now p bs = bs ∧ shotPlayer k now p = p) ∧
    (∀ (k : Keys) (p : Player) (bs : List Bullet) (n1 n2 : Int),
        k.space = true → p.lastShot = none → 0 < n1 → n2 - n1 ≤ 200 →
        shotBullets k n2 (shotPlayer k n1 p) (shotBullets k n1 p bs) =
            bs ++ [newBullet p] ∧
          (newBullet p).x + (newBullet p).width / 2 = p.x + p.width / 2 ∧
          (newBullet p).y = p.y) := by
  constructor
  · intro k p bs now t hls ht hle
    have hcs : canShoot p now = false := by
      unfold canShoot
      rw [hls]
      simp only [Bool.or_eq_false_iff, beq_eq_false_iff_ne, ne_eq, decide_eq_false_iff_not,
        not_lt]
      omega
    have hf : fireNow k p now = false := by
      unfold fireNow
      rw [hcs, Bool.and_false]
    exact ⟨by unfold shotBullets; rw [hf]; simp, by unfold shotPlayer; rw [hf]; simp⟩
  · intro k p bs n1 n2 hk hls h1 h12
    have hf1 : fireNow k p n1 = true := by
      unfold fireNow canShoot
      rw [hls, hk]
      rfl
    have hp1 : shotPlayer k n1 p = { p with lastShot := some n1 } := by
      unfold shotPlayer
      rw [hf1]
      simp
    have hb1 : shotBullets k n1 p bs = bs ++ [newBullet p] := by
      unfold shotBullets
      rw [hf1]
      simp
    have hcs2 : canShoot { p with lastShot := some n1 } n2 = false := by
      unfold canShoot
      simp only [Bool.or_eq_false_iff, beq_eq_false_iff_ne, ne_eq, decide_eq_false_iff_not,
        not_lt]
      omega
    have hf2 : fireNow k { p with lastShot := some n1 } n2 = false := by
      unfold fireNow
      rw [hcs2, Bool.and_false]
    rw [hp1, hb1]
    refine ⟨by unfold shotBullets; rw [hf2]; simp, ?_, rfl⟩
    show p.x + p.width / 2 - 2 + (4 : ℚ) / 2 = p.x + p.width / 2
    ring

/-- Witness for C8: a blocked shot 200 ms after timestamp 100, and a pair of
attempts at timestamps 1000 and 1100 yielding exactly one bullet. -/
theorem c8_fire_cooldown_witness :
    (shotBullets fireKeys 300 { initPlayer with lastShot := some 100 } [] = [] ∧
        shotPlayer fireKeys 300 { initPlayer with lastShot := some 100 } =
          { initPlayer with lastShot := some 100 }) ∧
      (shotBullets fireKeys 1100 (shotPlayer fireKeys 1000 initPlayer)
            (shotBullets fireKeys 1000 initPlayer []) = [] ++ [newBullet initPlayer] ∧
        (newBullet initPlayer).x + (newBullet initPlayer).width / 2 =
            initPlayer.x + initPlayer.width / 2 ∧
        (newBullet initPlayer).y = initPlayer.y) :=
  ⟨c8_fire_cooldown.1 fireKeys _ [] 300 100 rfl (by norm_num) (by norm_num),
   c8_fire_cooldown.2 fireKeys initPlayer [] 1000 1100 rfl rfl (by norm_num) (by norm_num)⟩

/-- C6: if after the horizontal advance some active enemy sits at a side
boundary, every active enemy of the wave flips its direction and moves down
by exactly 20 in that frame (inactive ones are untouched); otherwise the
advance step changes no enemy's direction or y. -/
theorem c6_wave_reversal (es : List Enemy) :
    (wallHit es = true →
      ∀ (i : Nat) (e : Enemy), es[i]? = some e →
        (e.active = true →
          (advanceEnemies es)[i]? =
            some { e with x := e.x + e.speed * e.direction,
                          direction := e.direction * (-1), y := e.y + 20 }) ∧
        (e.active = false → (advanceEnemies es)[i]? = some e)) ∧
    (wallHit es = false →
      ∀ (i : Nat) (e : Enemy), es[i]? = some e →
        (advanceEnemies es)[i]? = some (advanceEnemy e) ∧
          (advanceEnemy e).direction = e.direction ∧ (advanceEnemy e).y = e.y) := by
  constructor
  · intro hw i e he
    refine ⟨fun ha => ?_, fun ha => ?_⟩ <;>
      simp [advanceEnemies, hw, List.getElem?_map, he, advanceEnemy, reverseEnemy, ha]
  · intro hw i e he
    refine ⟨?_, ?_, ?_⟩
    · simp [advanceEnemies, hw, List.getElem?_map, he]
    · unfold advanceEnemy; split <;> rfl
    · unfold advanceEnemy; split <;> rfl

/-! ## Collision-resolution lemmas -/

theorem resolve_cons_inactive (p : Player) (b : Bullet) (rest : List Bullet) (es : List Enemy)
    (sc lv : Int) (go : Bool) (h : b.active = false) :
    resolveCollisions p (b :: rest) es sc lv go =
      { resolveCollisions p rest es sc lv go with
        bullets := b :: (resolveCollisions p rest es sc lv go).bullets } := by
  simp only [resolveCollisions]
  rw [if_pos h]

theorem resolve_cons_player (p : Player) (b : Bullet) (rest : List Bullet) (es : List Enemy)
    (sc lv : Int) (go : Bool) (ha : b.active = true) (hp : b.isPlayerBullet = true) :
    resolveCollisions p (b :: rest) es sc lv go =
      { resolveCollisions p rest (smashEnemies b es) (sc + 10 * (killCount b es : Int)) lv go with
        bullets := (if 0 < killCount b es then { b with active := false } else b) ::
          (resolveCollisions p rest (smashEnemies b es)
            (sc + 10 * (killCount b es : Int)) lv go).bullets } := by
  simp only [resolveCollisions]
  rw [if_neg (by simp [ha]), if_pos hp]

theorem resolve_cons_hit (p : Player) (b : Bullet) (rest : List Bullet) (es : List Enemy)
    (sc lv : Int) (go : Bool) (ha : b.active = true) (hp : b.isPlayerBullet = false)
    (hov : overlapsPlayer b p = true) :
    resolveCollisions p (b :: rest) es sc lv go =
      { resolveCollisions p rest es sc (lv - 1) (decide (lv - 1 ≤ 0)) with
        bullets := { b with active := false } ::
          (resolveCollisions p rest es sc (lv - 1) (decide (lv - 1 ≤ 0))).bullets } := by
  simp only [resolveCollisions]
  rw [if_neg (by simp [ha]), if_neg (by simp [hp]), if_pos hov]

theorem resolve_cons_miss (p : Player) (b : Bullet) (rest : List Bullet) (es : List Enemy)
    (sc lv : Int) (go : Bool) (ha : b.active = true) (hp : b.isPlayerBullet = false)
    (hov : overlapsPlayer b p = false) :
    resolveCollisions p (b :: rest) es sc lv go =
      { resolveCollisions p rest es sc lv go with
        bullets := b :: (resolveCollisions p rest es sc lv go).bullets } := by
  simp only [resolveCollisions]
  rw [if_neg (by simp [ha]), if_neg (by simp [hp]), if_neg (by simp [hov])]

theorem killCount_eq_zero {b : Bullet} {es : List Enemy}
    (h : ∀ e ∈ es, ¬(e.active = true ∧ overlapsEnemy b e = true)) : killCount b es = 0 := by
  unfold killCount
  have hnil : (es.filter fun e => e.active && overlapsEnemy b e) = [] := by
    rw [List.filter_eq_nil_iff]
    intro e he hpred
    rw [Bool.and_eq_true] at hpred
    exact h e he ⟨hpred.1, hpred.2⟩
  rw [hnil]
  rfl

theorem smash_id {b : Bullet} {es : List Enemy}
    (h : ∀ e ∈ es, ¬(e.active = true ∧ overlapsEnemy b e = true)) : smashEnemies b es = es := by
  induction es with
  | nil => rfl
  | cons e0 rest ih =>
    have h0 : ¬(e0.active && overlapsEnemy b e0) = true := by
      rw [Bool.and_eq_true]
      exact h e0 (List.mem_cons_self e0 rest)
    have hr := ih fun e hx => h e (List.mem_cons_of_mem _ hx)
    unfold smashEnemies at hr ⊢
    simp only [List.map_cons, if_neg h0, hr]

theorem smash_getElem? (b : Bullet) (es : List Enemy) (j : Nat) :
    (smashEnemies b es)[j]? = es[j]?.map fun e =>
      if e.active && overlapsEnemy b e then { e with active := false } else e := by
  unfold smashEnemies
  exact List.getElem?_map _ es j

theorem dead_eta {e : Enemy} (h : e.active = false) : { e with active := false } = e := by
  cases e with
  | mk x y w hh s d a => rw [show Enemy.active ⟨x, y, w, hh, s, d, a⟩ = a from rfl] at h; rw [h]

theorem smash_activeCount (b : Bullet) (es : List Enemy) :
    activeCount (smashEnemies b es) + killCount b es = activeCount es := by
  induction es with
  | nil => rfl
  | cons e0 rest ih =>
    unfold smashEnemies killCount activeCount at ih ⊢
    simp only [List.map_cons, List.filter_cons]
    by_cases ha : e0.active = true <;> by_cases hov : overlapsEnemy b e0 = true <;>
      simp [ha, hov] at ih ⊢ <;> omega

theorem bool_true_of_not_false {b : Bool} (h : ¬b = false) : b = true := by
  cases b
  · exact absurd rfl h
  · rfl

theorem bool_false_of_not_true {b : Bool} (h : ¬b = true) : b = false :=
  Bool.eq_false_iff.mpr h

theorem resolve_enemy_cases (p : Player) (bs : List Bullet) :
    ∀ (es : List Enemy) (sc lv : Int) (go : Bool) (j : Nat) (e : Enemy), es[j]? = some e →
      (resolveCollisions p bs es sc lv go).enemies[j]? = some e ∨
        (resolveCollisions p bs es sc lv go).enemies[j]? = some { e with active := false } := by
  induction bs with
  | nil => intro es sc lv go j e he; exact Or.inl he
  | cons b0 rest ih =>
    intro es sc lv go j e he
    by_cases h0 : b0.active = false
    · rw [resolve_cons_inactive p b0 rest es sc lv go h0]
      exact ih es sc lv go j e he
    · have h0' := bool_true_of_not_false h0
      by_cases h1 : b0.isPlayerBullet = true
      · rw [resolve_cons_player p b0 rest es sc lv go h0' h1]
        have hs := smash_getElem? b0 es j
        rw [he, Option.map_some'] at hs
        by_cases hc : (e.active && overlapsEnemy b0 e) = true
        · rw [if_pos hc] at hs
          rcases ih _ _ lv go j _ hs with h | h
          · exact Or.inr h
          · exact Or.inr h
        · rw [if_neg hc] at hs
          exact ih _ _ lv go j e hs
      · have h1' := bool_false_of_not_true h1
        by_cases h2 : overlapsPlayer b0 p = true
        · rw [resolve_cons_hit p b0 rest es sc lv go h0' h1' h2]
          exact ih es sc _ _ j e he
        · rw [resolve_cons_miss p b0 rest es sc lv go h0' h1' (bool_false_of_not_true h2)]
          exact ih es sc lv go j e he

theorem resolve_enemy_dead (p : Player) (bs : List Bullet) (es : List Enemy) (sc lv : Int)
    (go : Bool) {j : Nat} {e : Enemy} (he : es[j]? = some e) (ha : e.active = false) :
    (resolveCollisions p bs es sc lv go).enemies[j]? = some e := by
  rcases resolve_enemy_cases p bs es sc lv go j e he with h | h
  · exact h
  · rw [dead_eta ha] at h
    exact h

theorem resolve_enemy_killed (p : Player) (bs : List Bullet) :
    ∀ (es : List Enemy) (sc lv : Int) (go : Bool) (j : Nat) (e : Enemy), es[j]? = some e →
      e.active = true →
      (∃ b ∈ bs, b.active = true ∧ b.isPlayerBullet = true ∧ overlapsEnemy b e = true) →
      (resolveCollisions p bs es sc lv go).enemies[j]? = some { e with active := false } := by
  induction bs with
  | nil =>
    rintro es sc lv go j e he ha ⟨b, hb, -⟩
    exact absurd hb (List.not_mem_nil b)
  | cons b0 rest ih =>
    rintro es sc lv go j e he ha ⟨b, hbmem, hba, hbp, hbov⟩
    by_cases h0 : b0.active = false
    · rw [resolve_cons_inactive p b0 rest es sc lv go h0]
      refine ih es sc lv go j e he ha ⟨b, ?_, hba, hbp, hbov⟩
      rcases List.mem_cons.1 hbmem with rfl | hm
      · exact absurd hba (by simp [h0])
      · exact hm
    · have h0' := bool_true_of_not_false h0
      by_cases h1 : b0.isPlayerBullet = true
      · rw [resolve_cons_player p b0 rest es sc lv go h0' h1]
        have hs := smash_getElem? b0 es j
        rw [he, Option.map_some'] at hs
        by_cases hc : (e.active && overlapsEnemy b0 e) = true
        · rw [if_pos hc] at hs
          exact resolve_enemy_dead p rest _ _ lv go hs rfl
        · rw [if_neg hc] at hs
          rcases List.mem_cons.1 hbmem with rfl | hm
          · exact absurd (show (e.active && overlapsEnemy b e) = true by rw [ha, hbov]; rfl) hc
          · exact ih _ _ lv go j e hs ha ⟨b, hm, hba, hbp, hbov⟩
      · have h1' := bool_false_of_not_true h1
        have hbrest : b ∈ rest := by
          rcases List.mem_cons.1 hbmem with rfl | hm
          · exact absurd hbp (by simp [h1'])
          · exact hm
        by_cases h2 : overlapsPlayer b0 p = true
        · rw [resolve_cons_hit p b0 rest es sc lv go h0' h1' h2]
          exact ih es sc _ _ j e he ha ⟨b, hbrest, hba, hbp, hbov⟩
        · rw [resolve_cons_miss p b0 rest es sc lv go h0' h1' (bool_false_of_not_true h2)]
          exact ih es sc lv go j e he ha ⟨b, hbrest, hba, hbp, hbov⟩

theorem resolve_enemy_spared (p : Player) (bs : List Bullet) :
    ∀ (es : List Enemy) (sc lv : Int) (go : Bool) (j : Nat) (e : Enemy), es[j]? = some e →
      (∀ b ∈ bs, b.active = true → b.isPlayerBullet = true → overlapsEnemy b e = false) →
      (resolveCollisions p bs es sc lv go).enemies[j]? = some e := by
  induction bs with
  | nil => intro es sc lv go j e he _; exact he
  | cons b0 rest ih =>
    intro es sc lv go j e he h
    have hrest : ∀ b ∈ rest, b.active = true → b.isPlayerBullet = true →
        overlapsEnemy b e = false :=
      fun b hm => h b (List.mem_cons_of_mem _ hm)
    by_cases h0 : b0.active = false
    · rw [resolve_cons_inactive p b0 rest es sc lv go h0]
      exact ih es sc lv go j e he hrest
    · have h0' := bool_true_of_not_false h0
      by_cases h1 : b0.isPlayerBullet = true
      · rw [resolve_cons_player p b0 rest es sc lv go h0' h1]
        have hs := smash_getElem? b0 es j
        rw [he, Option.map_some'] at hs
        rw [if_neg (by rw [h b0 (List.mem_cons_self b0 rest) h0' h1, Bool.and_false]; simp)] at hs
        exact ih _ _ lv go j e hs hrest
      · have h1' := bool_false_of_not_true h1
        by_cases h2 : overlapsPlayer b0 p = true
        · rw [resolve_cons_hit p b0 rest es sc lv go h0' h1' h2]
          exact ih es sc _ _ j e he hrest
        · rw [resolve_cons_miss p b0 rest es sc lv go h0' h1' (bool_false_of_not_true h2)]
          exact ih es sc lv go j e he hrest

theorem resolve_bullet_missed (p : Player) (bs : List Bullet) :
    ∀ (es : List Enemy) (sc lv : Int) (go : Bool) (i : Nat) (b : Bullet), bs[i]? = some b →
      b.active = true → b.isPlayerBullet = true →
      (∀ e ∈ es, e.active = true → overlapsEnemy b e = false) →
      (resolveCollisions p bs es sc lv go).bullets[i]? = some b := by
  induction bs with
  | nil => intro es sc lv go i b hb; simp at hb
  | cons b0 rest ih =>
    intro es sc lv go i b hb hba hbp h
    by_cases h0 : b0.active = false
    · rw [resolve_cons_inactive p b0 rest es sc lv go h0]
      cases i with
      | zero =>
        have hbb : b0 = b := by simpa using hb
        subst hbb
        simp
      | succ i2 =>
        have hb2 : rest[i2]? = some b := by simpa using hb
        simpa using ih es sc lv go i2 b hb2 hba hbp h
    · have h0' := bool_true_of_not_false h0
      by_cases h1 : b0.isPlayerBullet = true
      · rw [resolve_cons_player p b0 rest es sc lv go h0' h1]
        cases i with
        | zero =>
          have hbb : b0 = b := by simpa using hb
          subst hbb
          have hk : killCount b0 es = 0 := killCount_eq_zero fun e he hc => by
            rw [h e he hc.1] at hc
            exact absurd hc.2 (by simp)
          rw [hk]
          simp
        | succ i2 =>
          have hb2 : rest[i2]? = some b := by simpa using hb
          have h' : ∀ e ∈ smashEnemies b0 es, e.active = true → overlapsEnemy b e = false := by
            intro e' he' hact
            unfold smashEnemies at he'
            obtain ⟨e, hee, rfl⟩ := List.mem_map.1 he'
            by_cases hc : (e.active && overlapsEnemy b0 e) = true
            · rw [if_pos hc] at hact
              exact absurd hact (by simp)
            · rw [if_neg hc] at hact ⊢
              exact h e hee hact
          simpa using ih _ _ lv go i2 b hb2 hba hbp h'
      · have h1' := bool_false_of_not_true h1
        by_cases h2 : overlapsPlayer b0 p = true
        · rw [resolve_cons_hit p b0 rest es sc lv go h0' h1' h2]
          cases i with
          | zero =>
            have hbb : b0 = b := by simpa using hb
            subst hbb
            exact absurd hbp h1
          | succ i2 =>
            have hb2 : rest[i2]? = some b := by simpa using hb
            simpa using ih es sc _ _ i2 b hb2 hba hbp h
        · rw [resolve_cons_miss p b0 rest es sc lv go h0' h1' (bool_false_of_not_true h2)]
          cases i with
          | zero =>
            have hbb : b0 = b := by simpa using hb
            subst hbb
            simp
          | succ i2 =>
            have hb2 : rest[i2]? = some b := by simpa using hb
            simpa using ih es sc lv go i2 b hb2 hba hbp h

theorem resolve_enemy_bullet_missed (p : Player) (bs : List Bullet) :
    ∀ (es : List Enemy) (sc lv : Int) (go : Bool) (i : Nat) (b : Bullet), bs[i]? = some b →
      b.isPlayerBullet = false → overlapsPlayer b p = false →
      (resolveCollisions p bs es sc lv go).bullets[i]? = some b := by
  induction bs with
  | nil => intro es sc lv go i b hb; simp at hb
  | cons b0 rest ih =>
    intro es sc lv go i b hb hbp hov
    by_cases h0 : b0.active = false
    · rw [resolve_cons_inactive p b0 rest es sc lv go h0]
      cases i with
      | zero =>
        have hbb : b0 = b := by simpa using hb
        subst hbb
        simp
      | succ i2 =>
        have hb2 : rest[i2]? = some b := by simpa using hb
        simpa using ih es sc lv go i2 b hb2 hbp hov
    · have h0' := bool_true_of_not_false h0
      by_cases h1 : b0.isPlayerBullet = true
      · rw [resolve_cons_player p b0 rest es sc lv go h0' h1]
        cases i with
        | zero =>
          have hbb : b0 = b := by simpa using hb
          subst hbb
          exact absurd h1 (by simp [hbp])
        | succ i2 =>
          have hb2 : rest[i2]? = some b := by simpa using hb
          simpa using ih _ _ lv go i2 b hb2 hbp hov
      · have h1' := bool_false_of_not_true h1
        by_cases h2 : overlapsPlayer b0 p = true
        · rw [resolve_cons_hit p b0 rest es sc lv go h0' h1' h2]
          cases i with
          | zero =>
            have hbb : b0 = b := by simpa using hb
            subst hbb
            exact absurd h2 (by simp [hov])
          | succ i2 =>
            have hb2 : rest[i2]? = some b := by simpa using hb
            simpa using ih es sc _ _ i2 b hb2 hbp hov
        · rw [resolve_cons_miss p b0 rest es sc lv go h0' h1' (bool_false_of_not_true h2)]
          cases i with
          | zero =>
            have hbb : b0 = b := by simpa using hb
            subst hbb
            simp
          | succ i2 =>
            have hb2 : rest[i2]? = some b := by simpa using hb
            simpa using ih es sc lv go i2 b hb2 hbp hov

theorem resolve_score (p : Player) (bs : List Bullet) :
    ∀ (es : List Enemy) (sc lv : Int) (go : Bool),
      (resolveCollisions p bs es sc lv go).score =
        sc + 10 * ((activeCount es : Int) -
          (activeCount (resolveCollisions p bs es sc lv go).enemies : Int)) ∧
      activeCount (resolveCollisions p bs es sc lv go).enemies ≤ activeCount es := by
  induction bs with
  | nil =>
    intro es sc lv go
    exact ⟨by simp [resolveCollisions], le_refl _⟩
  | cons b0 rest ih =>
    intro es sc lv go
    by_cases h0 : b0.active = false
    · rw [resolve_cons_inactive p b0 rest es sc lv go h0]
      exact ih es sc lv go
    · have h0' := bool_true_of_not_false h0
      by_cases h1 : b0.isPlayerBullet = true
      · rw [resolve_cons_player p b0 rest es sc lv go h0' h1]
        dsimp only
        obtain ⟨ihs, ihc⟩ := ih (smashEnemies b0 es) (sc + 10 * (killCount b0 es : Int)) lv go
        have hsm := smash_activeCount b0 es
        constructor
        · rw [ihs]
          omega
        · omega
      · have h1' := bool_false_of_not_true h1
        by_cases h2 : overlapsPlayer b0 p = true
        · rw [resolve_cons_hit p b0 rest es sc lv go h0' h1' h2]
          exact ih es sc _ _
        · rw [resolve_cons_miss p b0 rest es sc lv go h0' h1' (bool_false_of_not_true h2)]
          exact ih es sc lv go

theorem resolve_lives (p : Player) (bs : List Bullet) :
    ∀ (es : List Enemy) (sc lv : Int) (go : Bool),
      (resolveCollisions p bs es sc lv go).lives ≤ lv ∧
      ((resolveCollisions p bs es sc lv go).lives < lv →
        (resolveCollisions p bs es sc lv go).gameOver =
          decide ((resolveCollisions p bs es sc lv go).lives ≤ 0)) ∧
      ((resolveCollisions p bs es sc lv go).lives = lv →
        (resolveCollisions p bs es sc lv go).gameOver = go) := by
  induction bs with
  | nil =>
    intro es sc lv go
    exact ⟨le_refl _, fun h => absurd h (lt_irrefl _), fun _ => rfl⟩
  | cons b0 rest ih =>
    intro es sc lv go
    by_cases h0 : b0.active = false
    · rw [resolve_cons_inactive p b0 rest es sc lv go h0]
      exact ih es sc lv go
    · have h0' := bool_true_of_not_false h0
      by_cases h1 : b0.isPlayerBullet = true
      · rw [resolve_cons_player p b0 rest es sc lv go h0' h1]
        exact ih _ _ lv go
      · have h1' := bool_false_of_not_true h1
        by_cases h2 : overlapsPlayer b0 p = true
        · rw [resolve_cons_hit p b0 rest es sc lv go h0' h1' h2]
          dsimp only
          obtain ⟨ha, hlt, heq⟩ := ih es sc (lv - 1) (decide (lv - 1 ≤ 0))
          refine ⟨by omega, fun _ => ?_, fun hq => by omega⟩
          rcases lt_or_eq_of_le ha with hl | he2
          · exact hlt hl
          · rw [heq he2, he2]
        · rw [resolve_cons_miss p b0 rest es sc lv go h0' h1' (bool_false_of_not_true h2)]
          exact ih es sc lv go

theorem resolve_no_player_hits (p : Player) (bs : List Bullet) :
    ∀ (es : List Enemy) (sc lv : Int) (go : Bool),
      (∀ b ∈ bs, b.active = true → b.isPlayerBullet = false → overlapsPlayer b p = false) →
      (resolveCollisions p bs es sc lv go).lives = lv ∧
        (resolveCollisions p bs es sc lv go).gameOver = go := by
  induction bs with
  | nil => intro es sc lv go _; exact ⟨rfl, rfl⟩
  | cons b0 rest ih =>
    intro es sc lv go h
    have hrest : ∀ b ∈ rest, b.active = true → b.isPlayerBullet = false →
        overlapsPlayer b p = false :=
      fun b hm => h b (List.mem_cons_of_mem _ hm)
    by_cases h0 : b0.active = false
    · rw [resolve_cons_inactive p b0 rest es sc lv go h0]
      exact ih es sc lv go hrest
    · have h0' := bool_true_of_not_false h0
      by_cases h1 : b0.isPlayerBullet = true
      · rw [resolve_cons_player p b0 rest es sc lv go h0' h1]
        exact ih _ _ lv go hrest
      · have h1' := bool_false_of_not_true h1
        by_cases h2 : overlapsPlayer b0 p = true
        · exact absurd h2 (by simp [h b0 (List.mem_cons_self b0 rest) h0' h1'])
        · rw [resolve_cons_miss p b0 rest es sc lv go h0' h1' (bool_false_of_not_true h2)]
          exact ih es sc lv go hrest

theorem resolve_no_enemy_hits (p : Player) (bs : List Bullet) :
    ∀ (es : List Enemy) (sc lv : Int) (go : Bool),
      (∀ b ∈ bs, b.active = true → b.isPlayerBullet = true →
        ∀ e ∈ es, e.active = true → overlapsEnemy b e = false) →
      (resolveCollisions p bs es sc lv go).enemies = es ∧
        (resolveCollisions p bs es sc lv go).score = sc := by
  induction bs with
  | nil => intro es sc lv go _; exact ⟨rfl, rfl⟩
  | cons b0 rest ih =>
    intro es sc lv go h
    have hrest : ∀ b ∈ rest, b.active = true → b.isPlayerBullet = true →
        ∀ e ∈ es, e.active = true → overlapsEnemy b e = false :=
      fun b hm => h b (List.mem_cons_of_mem _ hm)
    by_cases h0 : b0.active = false
    · rw [resolve_cons_inactive p b0 rest es sc lv go h0]
      exact ih es sc lv go hrest
    · have h0' := bool_true_of_not_false h0
      by_cases h1 : b0.isPlayerBullet = true
      · have hhits := h b0 (List.mem_cons_self b0 rest) h0' h1
        have hk : killCount b0 es = 0 := killCount_eq_zero fun e he hc => by
          rw [hhits e he hc.1] at hc
          exact absurd hc.2 (by simp)
        have hsm : smashEnemies b0 es = es := smash_id fun e he hc => by
          rw [hhits e he hc.1] at hc
          exact absurd hc.2 (by simp)
        rw [resolve_cons_player p b0 rest es sc lv go h0' h1, hk, hsm]
        dsimp only
        simp only [Nat.cast_zero, mul_zero, add_zero]
        exact ih es sc lv go hrest
      · have h1' := bool_false_of_not_true h1
        by_cases h2 : overlapsPlayer b0 p = true
        · rw [resolve_cons_hit p b0 rest es sc lv go h0' h1' h2]
          exact ih es sc _ _ hrest
        · rw [resolve_cons_miss p b0 rest es sc lv go h0' h1' (bool_false_of_not_true h2)]
          exact ih es sc lv go hrest

theorem killCount_one (b : Bullet) (es : List Enemy) :
    ∀ (j : Nat) (e : Enemy), es[j]? = some e → (e.active && overlapsEnemy b e) = true →
      (∀ (j2 : Nat) (e2 : Enemy), es[j2]? = some e2 →
        (e2.active && overlapsEnemy b e2) = true → j2 = j) →
      killCount b es = 1 := by
  induction es with
  | nil => intro j e he; simp at he
  | cons e0 rest ih =>
    intro j e he hpred huniq
    unfold killCount
    rw [List.filter_cons]
    cases j with
    | zero =>
      have he0 : e0 = e := by simpa using he
      subst he0
      rw [if_pos hpred]
      have hnil : (rest.filter fun e2 => e2.active && overlapsEnemy b e2) = [] := by
        rw [List.filter_eq_nil_iff]
        intro e2 he2 hp2
        obtain ⟨j2, hj2⟩ := List.mem_iff_getElem?.1 he2
        have := huniq (j2 + 1) e2 (by simpa using hj2) hp2
        omega
      rw [hnil]
      rfl
    | succ j2 =>
      have he' : rest[j2]? = some e := by simpa using he
      have hne : ¬(e0.active && overlapsEnemy b e0) = true := by
        intro hp0
        have := huniq 0 e0 (by simp) hp0
        omega
      rw [if_neg hne]
      exact ih j2 e he' hpred fun j3 e3 hj3 hp3 => by
        have := huniq (j3 + 1) e3 (by simpa using hj3) hp3
        omega

theorem smash_eq_set (b : Bullet) (es : List Enemy) :
    ∀ (j : Nat) (e : Enemy), es[j]? = some e → (e.active && overlapsEnemy b e) = true →
      (∀ (j2 : Nat) (e2 : Enemy), es[j2]? = some e2 →
        (e2.active && overlapsEnemy b e2) = true → j2 = j) →
      smashEnemies b es = es.set j { e with active := false } := by
  induction es with
  | nil => intro j e he; simp at he
  | cons e0 rest ih =>
    intro j e he hpred huniq
    unfold smashEnemies
    rw [List.map_cons]
    cases j with
    | zero =>
      have he0 : e0 = e := by simpa using he
      subst he0
      rw [if_pos hpred, List.set_cons_zero]
      congr 1
      have hrest : ∀ e2 ∈ rest, ¬(e2.active = true ∧ overlapsEnemy b e2 = true) := by
        intro e2 he2 hc
        obtain ⟨j2, hj2⟩ := List.mem_iff_getElem?.1 he2
        have := huniq (j2 + 1) e2 (by simpa using hj2) (by rw [Bool.and_eq_true]; exact hc)
        omega
      have := smash_id (b := b) hrest
      unfold smashEnemies at this
      exact this
    | succ j2 =>
      have he' : rest[j2]? = some e := by simpa using he
      have hne : ¬(e0.active && overlapsEnemy b e0) = true := by
        intro hp0
        have := huniq 0 e0 (by simp) hp0
        omega
      rw [if_neg hne, List.set_cons_succ]
      congr 1
      have := ih j2 e he' hpred fun j3 e3 hj3 hp3 => by
        have := huniq (j3 + 1) e3 (by simpa using hj3) hp3
        omega
      unfold smashEnemies at this
      exact this

theorem resolve_single_pair (p : Player) (bs : List Bullet) :
    ∀ (es : List Enemy) (sc lv : Int) (go : Bool) (i j : Nat) (b : Bullet) (e : Enemy),
      bs[i]? = some b → es[j]? = some e →
      b.active = true → b.isPlayerBullet = true → e.active = true → overlapsEnemy b e = true →
      (∀ (i2 j2 : Nat) (b2 : Bullet) (e2 : Enemy), bs[i2]? = some b2 → es[j2]? = some e2 →
        b2.active = true → b2.isPlayerBullet = true → e2.active = true →
        overlapsEnemy b2 e2 = true → i2 = i ∧ j2 = j) →
      (resolveCollisions p bs es sc lv go).bullets[i]? = some { b with active := false } ∧
      (resolveCollisions p bs es sc lv go).enemies[j]? = some { e with active := false } ∧
      (resolveCollisions p bs es sc lv go).score = sc + 10 := by
  induction bs with
  | nil => intro es sc lv go i j b e hb; simp at hb
  | cons b0 rest ih =>
    intro es sc lv go i j b e hb he hba hbp hea hov huniq
    cases i with
    | zero =>
      have hb0 : b0 = b := by simpa using hb
      subst hb0
      rw [resolve_cons_player p b0 rest es sc lv go hba hbp]
      dsimp only
      have hprede : (e.active && overlapsEnemy b0 e) = true := by rw [hea, hov]; rfl
      have huniqJ : ∀ (j2 : Nat) (e2 : Enemy), es[j2]? = some e2 →
          (e2.active && overlapsEnemy b0 e2) = true → j2 = j := by
        intro j2 e2 hj2 hp2
        rw [Bool.and_eq_true] at hp2
        exact (huniq 0 j2 b0 e2 (by simp) hj2 hba hbp hp2.1 hp2.2).2
      have hk : killCount b0 es = 1 := killCount_one b0 es j e he hprede huniqJ
      have hsm : smashEnemies b0 es = es.set j { e with active := false } :=
        smash_eq_set b0 es j e he hprede huniqJ
      have hjlen : j < es.length := (List.getElem?_eq_some_iff.1 he).1
      rw [hk, hsm]
      have hnone : ∀ b2 ∈ rest, b2.active = true → b2.isPlayerBullet = true →
          ∀ e2 ∈ es.set j { e with active := false }, e2.active = true →
            overlapsEnemy b2 e2 = false := by
        intro b2 hb2 hb2a hb2p e2 he2 he2a
        obtain ⟨i2, hi2⟩ := List.mem_iff_getElem?.1 hb2
        obtain ⟨j2, hj2⟩ := List.mem_iff_getElem?.1 he2
        by_cases hjj : j2 = j
        · subst hjj
          rw [List.getElem?_set_self hjlen] at hj2
          have he2e : e2 = { e with active := false } := (Option.some.inj hj2).symm
          rw [he2e] at he2a
          exact absurd he2a (by simp)
        · rw [List.getElem?_set_ne (fun hq => hjj hq.symm)] at hj2
          by_cases hovq : overlapsEnemy b2 e2 = true
          · obtain ⟨hc1, -⟩ := huniq (i2 + 1) j2 b2 e2 (by simpa using hi2) hj2 hb2a hb2p
              he2a hovq
            omega
          · exact bool_false_of_not_true hovq
      have hrest := resolve_no_enemy_hits p rest (es.set j { e with active := false })
        (sc + 10 * ((1 : Nat) : Int)) lv go hnone
      refine ⟨?_, ?_, ?_⟩
      · rw [if_pos (by norm_num : (0 : Nat) < 1)]
        simp
      · have hset : (es.set j { e with active := false })[j]? =
            some { e with active := false } := List.getElem?_set_self hjlen
        rw [hrest.1]
        exact hset
      · rw [hrest.2]
        norm_num
    | succ i2 =>
      have hb' : rest[i2]? = some b := by simpa using hb
      have huniq2 : ∀ (i3 j3 : Nat) (b3 : Bullet) (e3 : Enemy), rest[i3]? = some b3 →
          es[j3]? = some e3 → b3.active = true → b3.isPlayerBullet = true →
          e3.active = true → overlapsEnemy b3 e3 = true → i3 = i2 ∧ j3 = j := by
        intro i3 j3 b3 e3 hi3 hj3 ha3 hp3 he3 ho3
        obtain ⟨hc1, hc2⟩ := huniq (i3 + 1) j3 b3 e3 (by simpa using hi3) hj3 ha3 hp3 he3 ho3
        exact ⟨by omega, hc2⟩
      by_cases h0 : b0.active = false
      · rw [resolve_cons_inactive p b0 rest es sc lv go h0]
        dsimp only
        obtain ⟨hc1, hc2, hc3⟩ := ih es sc lv go i2 j b e hb' he hba hbp hea hov huniq2
        exact ⟨by simpa using hc1, hc2, hc3⟩
      · have h0' := bool_true_of_not_false h0
        by_cases h1 : b0.isPlayerBullet = true
        · have hmiss : ∀ e2 ∈ es, ¬(e2.active = true ∧ overlapsEnemy b0 e2 = true) := by
            intro e2 he2 hc
            obtain ⟨j2, hj2⟩ := List.mem_iff_getElem?.1 he2
            obtain ⟨hc1, -⟩ := huniq 0 j2 b0 e2 (by simp) hj2 h0' h1 hc.1 hc.2
            omega
          have hk0 : killCount b0 es = 0 := killCount_eq_zero hmiss
          have hsm0 : smashEnemies b0 es = es := smash_id hmiss
          rw [resolve_cons_player p b0 rest es sc lv go h0' h1, hk0, hsm0]
          dsimp only
          rw [if_neg (by omega : ¬(0 : Nat) < 0)]
          simp only [Nat.cast_zero, mul_zero, add_zero]
          obtain ⟨hc1, hc2, hc3⟩ := ih es sc lv go i2 j b e hb' he hba hbp hea hov huniq2
          exact ⟨by simpa using hc1, hc2, hc3⟩
        · have h1' := bool_false_of_not_true h1
          by_cases h2 : overlapsPlayer b0 p = true
          · rw [resolve_cons_hit p b0 rest es sc lv go h0' h1' h2]
            dsimp only
            obtain ⟨hc1, hc2, hc3⟩ := ih es sc (lv - 1) (decide (lv - 1 ≤ 0)) i2 j b e hb' he
              hba hbp hea hov huniq2
            exact ⟨by simpa using hc1, hc2, hc3⟩
          · rw [resolve_cons_miss p b0 rest es sc lv go h0' h1' (bool_false_of_not_true h2)]
            dsimp only
            obtain ⟨hc1, hc2, hc3⟩ := ih es sc lv go i2 j b e hb' he hba hbp hea hov huniq2
            exact ⟨by simpa using hc1, hc2, hc3⟩

theorem collisionStage_lives (w : World) (k : Keys) (env : FrameEnv) :
    (collisionStage w k env).lives ≤ w.state.lives ∧
    ((collisionStage w k env).lives < w.state.lives →
      (collisionStage w k env).gameOver = decide ((collisionStage w k env).lives ≤ 0)) ∧
    ((collisionStage w k env).lives = w.state.lives →
      (collisionStage w k env).gameOver = w.state.gameOver) := by
  unfold collisionStage
  exact resolve_lives _ _ _ _ _ _

theorem lossCheck_of_true (es : List Enemy) (p : Player) : lossCheck es p true = true := rfl

theorem quietEnv_valid : ValidEnv quietEnv := by
  unfold ValidEnv quietEnv
  exact ⟨fun i => ⟨le_refl _, by norm_num⟩, ⟨by norm_num, by norm_num⟩,
    ⟨by norm_num, by norm_num⟩, by norm_num⟩

theorem shotEnv_valid : ValidEnv shotEnv := by
  unfold ValidEnv shotEnv
  exact ⟨fun i => ⟨le_refl _, by norm_num⟩, ⟨by norm_num, by norm_num⟩,
    ⟨by norm_num, by norm_num⟩, by norm_num⟩

theorem traceC3_valid : ∀ pr ∈ traceC3, ValidEnv pr.2 := by
  intro pr hpr
  unfold traceC3 at hpr
  obtain ⟨i, hi, rfl⟩ := List.mem_map.1 hpr
  dsimp only
  split
  · exact shotEnv_valid
  · exact quietEnv_valid

theorem reachable_runTrace : ∀ (tr : List (Keys × FrameEnv)) (w : World), Reachable w →
    (∀ pr ∈ tr, ValidEnv pr.2) → Reachable (runTrace w tr) := by
  intro tr
  induction tr with
  | nil => intro w hw _; exact hw
  | cons pr rest ih =>
    intro w hw hv
    exact ih (updateGame w pr.1 pr.2)
      (Reachable.update pr.1 hw (hv pr (List.mem_cons_self pr rest)))
      fun q hq => hv q (List.mem_cons_of_mem pr hq)

/-- C1 (code bug): the claim says a player bullet resolves at most one hit
per frame (at most one enemy deactivated, at most +10).  The source's inner
collision loop never re-checks `bullet.active`, so in `w1` — a single active
player bullet whose box overlaps two active enemies — one frame deactivates
two enemies and adds 20 to the score. -/
theorem c1_no_piercing_codebug :
    w1.bullets.length = 1 ∧ (w1.bullets[0]?.map fun b => b.isPlayerBullet) = some true ∧
      activeCount w1.enemies = 3 ∧ w1.state.score = 0 ∧
      (updateGame w1 keys0 quietEnv).state.score = 20 ∧
      activeCount (updateGame w1 keys0 quietEnv).enemies = 1 := by
  with_unfolding_all decide

/-- C3 (amended): in every frame in which the lives counter is decremented
to zero *or below*, the game-over flag becomes true in that same frame; and
in every reachable state, negative lives forces the game-over flag.  (Lives
can go below zero when several enemy bullets hit the player in one frame, so
"lives is never negative" does not hold as stated.) -/
theorem c3_lives_gameover :
    (∀ (w : World) (k : Keys) (env : FrameEnv),
        (updateGame w k env).state.lives < w.state.lives →
        (updateGame w k env).state.lives ≤ 0 →
        (updateGame w k env).state.gameOver = true) ∧
    (∀ w : World, Reachable w → w.state.lives < 0 → w.state.gameOver = true) := by
  constructor
  · intro w k env hlt hle
    by_cases hg : (w.state.gameOver || w.state.paused) = true
    · rw [updateGame_of_stopped w k env hg] at hlt
      exact absurd hlt (lt_irrefl _)
    · have hg' := bool_false_of_not_true hg
      rw [updateGame_run w k env hg'] at hlt hle ⊢
      dsimp only at hlt hle ⊢
      obtain ⟨-, h2, -⟩ := collisionStage_lives w k env
      rw [h2 hlt, decide_eq_true hle]
      exact lossCheck_of_true _ _
  · intro w hreach
    induction hreach with
    | init r hr => intro h; simp [initialWorld] at h
    | update k hr hv ih =>
      rename_i w2 env
      intro hneg
      by_cases hg : (w2.state.gameOver || w2.state.paused) = true
      · rw [updateGame_of_stopped w2 k env hg] at hneg ⊢
        exact ih hneg
      · have hg' := bool_false_of_not_true hg
        have hgo : w2.state.gameOver = false := (Bool.or_eq_false_iff.1 hg').1
        have hlv : 0 ≤ w2.state.lives := by
          by_contra hcon
          push_neg at hcon
          have := ih hcon
          rw [hgo] at this
          exact absurd this (by simp)
        rw [updateGame_run w2 k env hg'] at hneg ⊢
        dsimp only at hneg ⊢
        obtain ⟨hb1, hb2, hb3⟩ := collisionStage_lives w2 k env
        rcases lt_or_eq_of_le hb1 with hl | he2
        · rw [hb2 hl, decide_eq_true (le_of_lt hneg)]
          exact lossCheck_of_true _ _
        · rw [he2] at hneg
          exact absurd hneg (not_lt.mpr hlv)
    | restart hr hgo ih =>
      intro h
      simp [restart] at h

/-- Witness for C3 (amended), first part: one enemy bullet hits the player
with one life left; lives drop from 1 to 0 and game over is set that frame. -/
theorem c3_lives_gameover_witness :
    (updateGame wLastLife keys0 quietEnv).state.gameOver = true :=
  c3_lives_gameover.1 wLastLife keys0 quietEnv (by with_unfolding_all decide)
    (by with_unfolding_all decide)

/-- C3 counterexample: a concrete 37-frame reachable run (two single hits,
then two enemy bullets reaching the player's box on the same frame with one
life left) ends with `lives = -1`: reachable lives ARE negative here. -/
theorem c3_negative_lives_counterexample :
    Reachable (runTrace (initialWorld r0) traceC3) ∧
      (runTrace (initialWorld r0) traceC3).state.lives < 0 ∧
      (runTrace (initialWorld r0) traceC3).state.lives = -1 := by
  have h1 : (runTrace (initialWorld r0) traceC3).state.lives = -1 := by
    with_unfolding_all decide
  exact ⟨reachable_runTrace traceC3 (initialWorld r0) (Reachable.init r0 r0_valid)
    traceC3_valid, by rw [h1]; norm_num, h1⟩

/-- C4: whenever the active-enemy count is zero at the wave-clear check of a
running frame, the level increases by exactly 1 and the enemy list becomes
the canonical wave: exactly 50 enemies (5 rows × 10 columns starting at
(100, 50) with spacing 60×50), all active, speed 1, direction 1 — whatever
the previous wave looked like. -/
theorem c4_wave_clear (w : World) (k : Keys) (env : FrameEnv)
    (hgo : w.state.gameOver = false) (hpa : w.state.paused = false)
    (hclear : activeCount (collisionStage w k env).enemies = 0) :
    (updateGame w k env).state.level = w.state.level + 1 ∧
    (updateGame w k env).enemies = initEnemies ∧
    initEnemies.length = 50 ∧
    (∀ e ∈ initEnemies, e.active = true ∧ e.speed = 1 ∧ e.direction = 1 ∧
      e.width = 25 ∧ e.height = 20) ∧
    (∀ row < 5, ∀ col < 10, initEnemies[10 * row + col]? =
      some { x := 100 + (col : ℚ) * 60, y := 50 + (row : ℚ) * 50, width := 25, height := 20,
             speed := 1, direction := 1, active := true }) := by
  have hg : (w.state.gameOver || w.state.paused) = false := by rw [hgo, hpa]; rfl
  rw [updateGame_run w k env hg]
  dsimp only
  rw [if_pos hclear, if_pos hclear]
  refine ⟨rfl, rfl, by with_unfolding_all decide, by with_unfolding_all decide,
    by with_unfolding_all decide⟩

/-- Witness for C4 at a concrete empty-wave world. -/
theorem c4_wave_clear_witness :
    activeCount (collisionStage wClear keys0 quietEnv).enemies = 0 ∧
      (updateGame wClear keys0 quietEnv).state.level = wClear.state.level + 1 ∧
      (updateGame wClear keys0 quietEnv).enemies = initEnemies := by
  have h : activeCount (collisionStage wClear keys0 quietEnv).enemies = 0 := by
    with_unfolding_all decide
  obtain ⟨h1, h2, -⟩ := c4_wave_clear wClear keys0 quietEnv rfl rfl h
  exact ⟨h, h1, h2⟩

/-- C5 counterexample: two active player bullets overlap the same active
enemy.  The pair (second bullet, enemy) satisfies the claim's premise —
both active, boxes overlapping, at collision-resolution time — yet after
resolution the second bullet is returned unchanged and still active (the
first bullet already deactivated the enemy), refuting "both become
inactive ... for every overlapping pair". -/
theorem c5_pairwise_counterexample :
    cb2.active = true ∧ cb2.isPlayerBullet = true ∧ loneEnemy.active = true ∧
      overlapsEnemy cb2 loneEnemy = true ∧
      [cb1, cb2][1]? = some cb2 ∧
      (resolveCollisions initPlayer [cb1, cb2] [loneEnemy] 0 3 false).bullets[1]? = some cb2 ∧
      (resolveCollisions initPlayer [cb1, cb2] [loneEnemy] 0 3 false).score = 10 := by
  with_unfolding_all decide

/-- C5 (amended): at collision resolution, (1) every active enemy whose box
overlaps some active player bullet becomes inactive; (2) an active enemy
overlapped by no active player bullet is not mutated; (3) an active player
bullet overlapping no active enemy is not mutated; (4) an enemy bullet not
overlapping the player is not mutated; (5) the score increases by exactly 10
per enemy deactivated (and never decreases, the active-enemy count never
grows); (6) if no active enemy bullet overlaps the player, lives and the
game-over flag are unchanged; (7) when exactly one (bullet, enemy) pair of
an active player bullet over an active enemy overlaps, both become inactive
and the score increases by exactly 10. -/
theorem c5_collision_resolution :
    (∀ (p : Player) (bs : List Bullet) (es : List Enemy) (sc lv : Int) (go : Bool)
        (j : Nat) (e : Enemy), es[j]? = some e → e.active = true →
        (∃ b ∈ bs, b.active = true ∧ b.isPlayerBullet = true ∧ overlapsEnemy b e = true) →
        (resolveCollisions p bs es sc lv go).enemies[j]? = some { e with active := false }) ∧
    (∀ (p : Player) (bs : List Bullet) (es : List Enemy) (sc lv : Int) (go : Bool)
        (j : Nat) (e : Enemy), es[j]? = some e →
        (∀ b ∈ bs, b.active = true → b.isPlayerBullet = true → overlapsEnemy b e = false) →
        (resolveCollisions p bs es sc lv go).enemies[j]? = some e) ∧
    (∀ (p : Player) (bs : List Bullet) (es : List Enemy) (sc lv : Int) (go : Bool)
        (i : Nat) (b : Bullet), bs[i]? = some b → b.active = true → b.isPlayerBullet = true →
        (∀ e ∈ es, e.active = true → overlapsEnemy b e = false) →
        (resolveCollisions p bs es sc lv go).bullets[i]? = some b) ∧
    (∀ (p : Player) (bs : List Bullet) (es : List Enemy) (sc lv : Int) (go : Bool)
        (i : Nat) (b : Bullet), bs[i]? = some b → b.isPlayerBullet = false →
        overlapsPlayer b p = false →
        (resolveCollisions p bs es sc lv go).bullets[i]? = some b) ∧
    (∀ (p : Player) (bs : List Bullet) (es : List Enemy) (sc lv : Int) (go : Bool),
        (resolveCollisions p bs es sc lv go).score =
          sc + 10 * ((activeCount es : Int) -
            (activeCount (resolveCollisions p bs es sc lv go).enemies : Int)) ∧
        activeCount (resolveCollisions p bs es sc lv go).enemies ≤ activeCount es) ∧
    (∀ (p : Player) (bs : List Bullet) (es : List Enemy) (sc lv : Int) (go : Bool),
        (∀ b ∈ bs, b.active = true → b.isPlayerBullet = false → overlapsPlayer b p = false) →
        (resolveCollisions p bs es sc lv go).lives = lv ∧
          (resolveCollisions p bs es sc lv go).gameOver = go) ∧
    (∀ (p : Player) (bs : List Bullet) (es : List Enemy) (sc lv : Int) (go : Bool)
        (i j : Nat) (b : Bullet) (e : Enemy), bs[i]? = some b → es[j]? = some e →
        b.active = true → b.isPlayerBullet = true → e.active = true →
        overlapsEnemy b e = true →
        (∀ (i2 j2 : Nat) (b2 : Bullet) (e2 : Enemy), bs[i2]? = some b2 → es[j2]? = some e2 →
          b2.active = true → b2.isPlayerBullet = true → e2.active = true →
          overlapsEnemy b2 e2 = true → i2 = i ∧ j2 = j) →
        (resolveCollisions p bs es sc lv go).bullets[i]? = some { b with active := false } ∧
        (resolveCollisions p bs es sc lv go).enemies[j]? = some { e with active := false } ∧
        (resolveCollisions p bs es sc lv go).score = sc + 10) := by
  refine ⟨?_, ?_, ?_, ?_, ?_, ?_, ?_⟩
  · intro p bs es sc lv go j e h1 h2 h3
    exact resolve_enemy_killed p bs es sc lv go j e h1 h2 h3
  · intro p bs es sc lv go j e h1 h2
    exact resolve_enemy_spared p bs es sc lv go j e h1 h2
  · intro p bs es sc lv go i b h1 h2 h3 h4
    exact resolve_bullet_missed p bs es sc lv go i b h1 h2 h3 h4
  · intro p bs es sc lv go i b h1 h2 h3
    exact resolve_enemy_bullet_missed p bs es sc lv go i b h1 h2 h3
  · intro p bs es sc lv go
    exact resolve_score p bs es sc lv go
  · intro p bs es sc lv go h
    exact resolve_no_player_hits p bs es sc lv go h
  · intro p bs es sc lv go i j b e h1 h2 h3 h4 h5 h6 h7
    exact resolve_single_pair p bs es sc lv go i j b e h1 h2 h3 h4 h5 h6 h7

/-- Witness for C5 (amended): a single overlapping pair — one active player
bullet over one active enemy — yields both inactive and exactly +10. -/
theorem c5_collision_resolution_witness :
    (resolveCollisions initPlayer [cb1] [loneEnemy] 0 3 false).bullets[0]? =
        some { cb1 with active := false } ∧
      (resolveCollisions initPlayer [cb1] [loneEnemy] 0 3 false).enemies[0]? =
        some { loneEnemy with active := false } ∧
      (resolveCollisions initPlayer [cb1] [loneEnemy] 0 3 false).score = 0 + 10 := by
  refine c5_collision_resolution.2.2.2.2.2.2 initPlayer [cb1] [loneEnemy] 0 3 false 0 0 cb1
    loneEnemy rfl rfl (by with_unfolding_all decide) (by with_unfolding_all decide)
    (by with_unfolding_all decide) (by with_unfolding_all decide) ?_
  intro i2 j2 b2 e2 hi2 hj2 ha2 hp2 he2 ho2
  cases i2 with
  | zero =>
    cases j2 with
    | zero => exact ⟨rfl, rfl⟩
    | succ j3 => simp at hj2
  | succ i3 => simp at hi2

/-- Witness for C6: a single active enemy hitting the right wall reverses
and steps down in the same frame. -/
theorem c6_wave_reversal_witness :
    wallHit [wallEnemy] = true ∧
      (advanceEnemies [wallEnemy])[0]? =
        some { wallEnemy with x := wallEnemy.x + wallEnemy.speed * wallEnemy.direction,
                              direction := wallEnemy.direction * (-1),
                              y := wallEnemy.y + 20 } :=
  ⟨by with_unfolding_all decide,
   ((c6_wave_reversal [wallEnemy]).1 (by with_unfolding_all decide) 0 wallEnemy rfl).1 rfl⟩

end SpaceShooter
